import Mathlib

/-!
Verification of the authentication middleware of this warp fork against its
specification.  The definitions below are a shallow embedding of
src/filters/authorization.rs and src/filters/auth.rs.  Futures are taken
denotationally (a future is represented by the value it eventually resolves
to).  External collaborators that the source calls into (the http and headers
crates, base64 decoding, UTF-8 decoding) are modelled from their documented
behavior; every such definition carries a comment saying what it models.
-/

namespace Warp

/-! Byte and character utilities used by the embedded code. -/

/-- Continuation-byte test for UTF-8 decoding (bytes 0x80 to 0xBF). -/
def isCont (b : Nat) : Bool := decide (128 ≤ b ∧ b ≤ 191)

/-- Decode one UTF-8 scalar value from the front of a byte list.  Returns the
decoded character and the number of bytes consumed, or none together with the
length of the maximal invalid subpart (this is the unit that the Rust standard
library replaces with one replacement character in lossy decoding). -/
def utf8Step : List Nat → Option Char × Nat
  | [] => (none, 1)
  | b :: rest =>
    if b < 128 then (some (Char.ofNat b), 1)
    else if b < 194 then (none, 1)
    else if b ≤ 223 then
      match rest with
      | [] => (none, 1)
      | c :: _ =>
        if isCont c then (some (Char.ofNat ((b - 192) * 64 + (c - 128))), 2)
        else (none, 1)
    else if b ≤ 239 then
      match rest with
      | [] => (none, 1)
      | c :: rest2 =>
        if (if b = 224 then decide (160 ≤ c ∧ c ≤ 191)
            else if b = 237 then decide (128 ≤ c ∧ c ≤ 159)
            else isCont c) then
          match rest2 with
          | [] => (none, 2)
          | d :: _ =>
            if isCont d then
              (some (Char.ofNat ((b - 224) * 4096 + (c - 128) * 64 + (d - 128))), 3)
            else (none, 2)
        else (none, 1)
    else if b ≤ 244 then
      match rest with
      | [] => (none, 1)
      | c :: rest2 =>
        if (if b = 240 then decide (144 ≤ c ∧ c ≤ 191)
            else if b = 244 then decide (128 ≤ c ∧ c ≤ 143)
            else isCont c) then
          match rest2 with
          | [] => (none, 2)
          | d :: rest3 =>
            if isCont d then
              match rest3 with
              | [] => (none, 3)
              | e :: _ =>
                if isCont e then
                  (some (Char.ofNat
                    ((b - 240) * 262144 + (c - 128) * 4096 + (d - 128) * 64 + (e - 128))), 4)
                else (none, 3)
            else (none, 2)
        else (none, 1)
    else (none, 1)

/-- Fuelled driver for lossy UTF-8 decoding; each step consumes at least one
byte, so fuel equal to the length of the input suffices. -/
def utf8LossyGo : Nat → List Nat → List Char
  | 0, _ => []
  | _, [] => []
  | fuel + 1, l =>
    match utf8Step l with
    | (some c, n) => c :: utf8LossyGo fuel (l.drop n)
    | (none, n) => Char.ofNat 65533 :: utf8LossyGo fuel (l.drop n)

/-- Models String::from_utf8_lossy from the Rust standard library: invalid
subparts become the replacement character U+FFFD, valid input round-trips. -/
def fromUtf8Lossy (l : List Nat) : String := ⟨utf8LossyGo l.length l⟩

/-- Fuelled driver for strict UTF-8 decoding. -/
def utf8StrictGo : Nat → List Nat → Option (List Char)
  | 0, _ => some []
  | _, [] => some []
  | fuel + 1, l =>
    match utf8Step l with
    | (some c, n) =>
      match utf8StrictGo fuel (l.drop n) with
      | some cs => some (c :: cs)
      | none => none
    | (none, _) => none

/-- Models String::from_utf8 from the Rust standard library: fails on any
invalid byte sequence. -/
def fromUtf8 (l : List Nat) : Option String :=
  match utf8StrictGo l.length l with
  | some cs => some ⟨cs⟩
  | none => none

/-- Value of one character of the standard base64 alphabet. -/
def b64Val (c : Char) : Option Nat :=
  if 65 ≤ c.toNat ∧ c.toNat ≤ 90 then some (c.toNat - 65)
  else if 97 ≤ c.toNat ∧ c.toNat ≤ 122 then some (c.toNat - 71)
  else if 48 ≤ c.toNat ∧ c.toNat ≤ 57 then some (c.toNat + 4)
  else if c = '+' then some 62
  else if c = '/' then some 63
  else none

/-- Map every character to its base64 value, failing on the first invalid one. -/
def b64Map : List Char → Option (List Nat)
  | [] => some []
  | c :: rest =>
    match b64Val c with
    | none => none
    | some v =>
      match b64Map rest with
      | none => none
      | some vs => some (v :: vs)

/-- Reassemble 6-bit groups into bytes, four groups at a time; a trailing group
of one value is invalid, trailing groups of two or three values produce one or
two bytes. -/
def b64Chunks : List Nat → Option (List Nat)
  | [] => some []
  | [_] => none
  | [a, b] => some [a * 4 + b / 16]
  | [a, b, c] => some [a * 4 + b / 16, (b % 16) * 16 + c / 4]
  | a :: b :: c :: d :: rest =>
    match b64Chunks rest with
    | none => none
    | some tail => some ((a * 4 + b / 16) :: ((b % 16) * 16 + c / 4) :: ((c % 4) * 64 + d) :: tail)

/-- Strip at most two padding characters from the end of the input. -/
def stripPad (l : List Char) : List Char :=
  match l.reverse with
  | '=' :: '=' :: rest => rest.reverse
  | '=' :: rest => rest.reverse
  | _ => l

/-- Models base64::decode from the base64 crate (standard alphabet, optional
padding): any character outside the alphabet and any input whose unpadded
length is congruent to 1 modulo 4 is an error. -/
def base64Decode (s : String) : Option (List Nat) :=
  match b64Map (stripPad s.toList) with
  | none => none
  | some vals => b64Chunks vals

/-- ASCII lower-casing of a single character. -/
def asciiLower (c : Char) : Char :=
  if 65 ≤ c.toNat ∧ c.toNat ≤ 90 then Char.ofNat (c.toNat + 32) else c

/-- Models str::eq_ignore_ascii_case from the Rust standard library. -/
def eqIgnoreCase (a b : String) : Bool :=
  a.toList.map asciiLower == b.toList.map asciiLower

/-- Models HeaderValue::to_str from the http crate: succeeds exactly when every
character is visible ASCII, space, or horizontal tab. -/
def headerValueToStr (value : String) : Option String :=
  if value.toList.all (fun c => decide ((32 ≤ c.toNat ∧ c.toNat ≤ 126) ∨ c.toNat = 9)) then
    some value
  else none

/-- Accumulator-style splitting into maximal whitespace-free words. -/
def wordsAux : List Char → List Char → List String
  | [], acc => if acc.isEmpty then [] else [⟨acc.reverse⟩]
  | c :: rest, acc =>
    if c.isWhitespace then
      if acc.isEmpty then wordsAux rest []
      else ⟨acc.reverse⟩ :: wordsAux rest []
    else wordsAux rest (c :: acc)

/-- Models str::split_whitespace from the Rust standard library: the list of
maximal nonempty words of the string, separators discarded. -/
def splitWhitespace (s : String) : List String := wordsAux s.toList []

/-- Header maps are association lists from header name to header value. -/
abbrev HeaderMap := List (String × String)

/-- Header lookup, first match wins; header names compare ASCII
case-insensitively as in the http crate. -/
def getHeader : HeaderMap → String → Option String
  | [], _ => none
  | (k, v) :: rest, name => if eqIgnoreCase k name then some v else getHeader rest name

/-! Embedding of src/filters/authorization.rs. -/

namespace Authorization

/-- Credentials of the Basic scheme as extracted by the basic filter. -/
structure BasicCredentials where
  user : String
  password : String
deriving DecidableEq

/-- Token of the Bearer scheme as extracted by the bearer filter. -/
structure BearerToken where
  token : String
deriving DecidableEq

/-- Embeds the private function parse of src/filters/authorization.rs: returns
the credentials part of the header value when the first whitespace-separated
word equals the desired scheme (plain string equality, hence case-sensitive),
namely the second whitespace-separated word. -/
def parse (scheme : String) (value : String) : Option String :=
  match headerValueToStr value with
  | none => none
  | some val =>
    match splitWhitespace val with
    | [] => none
    | first :: rest =>
      if first = scheme then rest.head? else none

/-- Embeds slice::splitn with limit 2 on the colon byte: the bytes before the
first colon, and, when a colon exists, the bytes after it. -/
def splitn2Colon : List Nat → List Nat × Option (List Nat)
  | [] => ([], none)
  | b :: rest =>
    if b = 58 then ([], some rest)
    else
      ((b :: (splitn2Colon rest).1), (splitn2Colon rest).2)

/-- Embeds the extraction closure of the function basic of
src/filters/authorization.rs: parse with scheme Basic, base64-decode the
payload, split at the first colon, decode user and password with lossy UTF-8. -/
def basic (val : String) : Option BasicCredentials :=
  match parse ("Basic") val with
  | none => none
  | some s =>
    match base64Decode s with
    | none => none
    | some d =>
      match (splitn2Colon d).2 with
      | none => none
      | some p => some ⟨fromUtf8Lossy (splitn2Colon d).1, fromUtf8Lossy p⟩

/-- Embeds the extraction closure of the function bearer of
src/filters/authorization.rs: parse with scheme Bearer, wrap the result. -/
def bearer (val : String) : Option BearerToken :=
  match parse ("Bearer") val with
  | none => none
  | some s => some ⟨s⟩

end Authorization

/-! Embedding of src/filters/auth.rs. -/

namespace Auth

/-- Basic credentials as decoded by the headers crate (accessors username and
password on headers::authorization::Basic). -/
structure Basic where
  username : String
  password : String
deriving DecidableEq

/-- Bearer credentials as decoded by the headers crate (accessor token on
headers::authorization::Bearer holds the text after the scheme, verbatim). -/
structure Bearer where
  token : String
deriving DecidableEq

/-- Embeds the enum AuthHeader of src/filters/auth.rs. -/
inductive AuthHeader where
  | basic : Basic → AuthHeader
  | bearer : Bearer → AuthHeader
deriving DecidableEq

/-- Rejections relevant to the middleware.  The reject module of this
repository is not under src/; the two constructors the middleware creates are
modelled, and every other rejection a user-supplied authorizer or an inner
filter can produce is represented by the opaque-to-the-middleware constructor
other. -/
inductive Rejection where
  | unauthorizedChallenge (scheme realm : String)
  | forbidden
  | other (tag : Nat)
deriving DecidableEq

/-- Split a character list at its first colon, as the headers crate does with
str::find on the decoded Basic payload; none when no colon occurs. -/
def splitColonChars : List Char → Option (List Char × List Char)
  | [] => none
  | c :: rest =>
    if c = ':' then some ([], rest)
    else
      match splitColonChars rest with
      | none => none
      | some (u, p) => some (c :: u, p)

/-- Scheme test of the headers crate for typed Authorization decoding: the
value is longer than the scheme name, the byte right after the scheme name is
a space, and the leading bytes equal the scheme name ASCII case-insensitively. -/
def schemeMatches (scheme value : String) : Bool :=
  let v := value.toList
  let n := scheme.toList.length
  decide (n < v.length) && (v.get? n == some ' ') && eqIgnoreCase ⟨v.take n⟩ scheme

/-- Models the typed decoder of the external headers crate for Authorization
with the Basic scheme, which src/filters/auth.rs calls through
typed_try_get: scheme test, skip further spaces, strict base64 decode, strict
UTF-8 decode, split at the first colon. -/
def decodeBasicAuth (value : String) : Option Basic :=
  if schemeMatches ("Basic") value then
    match (value.toList.drop 6).dropWhile (fun c => c = ' ') with
    | [] => none
    | rest =>
      match base64Decode ⟨rest⟩ with
      | none => none
      | some bytes =>
        match fromUtf8 bytes with
        | none => none
        | some decoded =>
          match splitColonChars decoded.toList with
          | none => none
          | some (u, p) => some ⟨⟨u⟩, ⟨p⟩⟩
  else none

/-- Models the typed decoder of the external headers crate for Authorization
with the Bearer scheme: scheme test, then the value must be a visible-ASCII
header value, and the token is everything after the scheme name and one space,
verbatim. -/
def decodeBearerAuth (value : String) : Option Bearer :=
  if schemeMatches ("Bearer") value then
    match headerValueToStr value with
    | none => none
    | some v => some ⟨⟨v.toList.drop 7⟩⟩
  else none

/-- Models HeaderMap::typed_try_get for Authorization of Basic: ok none when
the header is absent, ok some on a decodable value, an error on a present but
undecodable value. -/
def typedTryGetBasic (headers : HeaderMap) : Except Unit (Option Basic) :=
  match getHeader headers ("authorization") with
  | none => .ok none
  | some v =>
    match decodeBasicAuth v with
    | some b => .ok (some b)
    | none => .error ()

/-- Models HeaderMap::typed_try_get for Authorization of Bearer. -/
def typedTryGetBearer (headers : HeaderMap) : Except Unit (Option Bearer) :=
  match getHeader headers ("authorization") with
  | none => .ok none
  | some v =>
    match decodeBearerAuth v with
    | some b => .ok (some b)
    | none => .error ()

/-- Embeds the struct Authorizer of src/filters/auth.rs; the boxed handler
closure is a function to the result its returned future resolves to. -/
structure Authorizer where
  scheme : String
  realm : String
  handler : AuthHeader → Except Rejection Unit

/-- Embeds Authorizer::handle_request. -/
def Authorizer.handle_request (a : Authorizer) (header : AuthHeader) :
    Except Rejection Unit :=
  a.handler header

/-- Embeds Authorizer::extract_header: try the typed Basic decode, then the
typed Bearer decode, and fall through to none.  Note that the receiver is
unused, exactly as in the source: the configured scheme does not constrain
extraction. -/
def Authorizer.extract_header (_a : Authorizer) (headers : HeaderMap) :
    Option AuthHeader :=
  match typedTryGetBasic headers with
  | .ok (some header) => some (.basic header)
  | _ =>
    match typedTryGetBearer headers with
    | .ok (some header) => some (.bearer header)
    | _ => none

/-- Embeds the struct Wrapped of src/filters/auth.rs: the successful inner
extraction together with the authorization context. -/
structure Wrapped (ρ : Type) where
  wrapped : Authorizer × AuthHeader
  inner : ρ

/-- Embeds the Reply implementation of Wrapped: into_response delegates to the
inner reply unchanged (intoResponse stands for the Reply implementation of the
inner type). -/
def Wrapped.into_response {ρ R : Type} (intoResponse : ρ → R) (w : Wrapped ρ) : R :=
  intoResponse w.inner

/-- Embeds the struct AuthFilter of src/filters/auth.rs.  The inner filter is
a function from invocation to the result its future resolves to. -/
structure AuthFilter (ρ : Type) where
  authorizer : Authorizer
  scheme : String
  realm : String
  inner : Unit → Except Rejection ρ

/-- Embeds AuthFilter::filter followed by resolving the returned future:
WrappedPendingFuture::poll and then WrappedAuthedFuture::poll, with each
awaited future replaced by the value it resolves to.  The boolean records
whether the code path executed inner.filter(Internal), which happens only in
the accepting branch of WrappedPendingFuture::poll.  The conversions written
err.into() in the source are the CombineRejection embedding, which is the
identity when both sides are the rejection type. -/
def AuthFilter.run {ρ : Type} (f : AuthFilter ρ) (headers : HeaderMap) :
    Except Rejection (Wrapped ρ) × Bool :=
  match f.authorizer.extract_header headers with
  | none => (.error (.unauthorizedChallenge f.scheme f.realm), false)
  | some header =>
    match f.authorizer.handle_request header with
    | .error _ => (.error .forbidden, false)
    | .ok _ =>
      match f.inner () with
      | .ok x => (.ok ⟨(f.authorizer, header), x⟩, true)
      | .error e => (.error e, true)

/-- Embeds the struct Authed of src/filters/auth.rs. -/
structure Authed where
  scheme : String
  realm : String
  authorizer : Authorizer

/-- Embeds the constructor auth of src/filters/auth.rs. -/
def auth (scheme realm : String) (authorizer : AuthHeader → Except Rejection Unit) :
    Authed :=
  ⟨scheme, realm, ⟨scheme, realm, authorizer⟩⟩

/-- Embeds the constructor basic of src/filters/auth.rs. -/
def basic (realm : String) (f : AuthHeader → Except Rejection Unit) : Authed :=
  auth ("Basic") realm f

/-- Embeds WrapSealed::wrap for Authed. -/
def Authed.wrap {ρ : Type} (a : Authed) (inner : Unit → Except Rejection ρ) :
    AuthFilter ρ :=
  ⟨a.authorizer, a.scheme, a.realm, inner⟩

/-- Rendered HTTP responses, for the rejection kinds whose rendering the spec
fixes. -/
structure Response where
  status : Nat
  headers : List (String × String)
  body : String
deriving DecidableEq

/-- Modelled from the spec: the rendering that the reject module of this
repository (not under src/) gives the two middleware rejections.  An
Unauthorized challenge renders as 401 with a WWW-Authenticate header naming
the scheme and realm, Forbidden renders as 403; rejections of other filters
are rendered by the host framework and are out of scope here. -/
def renderRejection : Rejection → Option Response
  | .unauthorizedChallenge scheme realm =>
    some ⟨401, [(("WWW-Authenticate"), scheme ++ (" realm=\"") ++ realm ++ ("\""))], ("")⟩
  | .forbidden => some ⟨403, [], ("")⟩
  | .other _ => none

/-- Credential extraction written from the literal words of the spec, for
comparison with Authorizer::extract_header: absent header gives none; a Basic
decode is attempted first; a Bearer decode is attempted only when the Basic
decode fails; none when both fail. -/
def extractSpec (headers : HeaderMap) : Option AuthHeader :=
  match getHeader headers ("authorization") with
  | none => none
  | some v =>
    match decodeBasicAuth v with
    | some b => some (.basic b)
    | none =>
      match decodeBearerAuth v with
      | some t => some (.bearer t)
      | none => none

end Auth

/-! Helper lemmas. -/

/-- Lemma for splitn with limit two: without a colon in the input the second
component is none. -/
theorem splitn2Colon_no_colon (d : List Nat) (h : (58 : Nat) ∉ d) :
    (Authorization.splitn2Colon d).2 = none := by
  induction d with
  | nil => rfl
  | cons b rest ih =>
    have hb : b ≠ 58 := by
      intro hc
      exact h (hc ▸ List.mem_cons_self b rest)
    have hr : (58 : Nat) ∉ rest := fun hc => h (List.mem_cons_of_mem b hc)
    simp [Authorization.splitn2Colon, hb, ih hr]

/-- Lemma for splitn with limit two: the split at the first colon returns the
bytes before it and the bytes after it. -/
theorem splitn2Colon_before_colon (u p : List Nat) (hu : (58 : Nat) ∉ u) :
    Authorization.splitn2Colon (u ++ 58 :: p) = (u, some p) := by
  induction u with
  | nil => simp [Authorization.splitn2Colon]
  | cons b rest ih =>
    have hb : b ≠ 58 := by
      intro hc
      exact hu (hc ▸ List.mem_cons_self b rest)
    have hr : (58 : Nat) ∉ rest := fun hc => hu (List.mem_cons_of_mem b hc)
    simp [Authorization.splitn2Colon, hb, ih hr]

/-! Claim theorems. -/

/-- C1: when the request headers contain no parseable Authorization credential
(absent or malformed), the middleware short-circuits with the Unauthorized
challenge rejection carrying the configured scheme and realm, rendered as 401
with a WWW-Authenticate header; the inner filter is not invoked (the recorded
invocation flag is false and the outcome is independent of the inner filter). -/
theorem missing_credential_challenge {ρ : Type} (f : Auth.AuthFilter ρ)
    (headers : HeaderMap)
    (h : f.authorizer.extract_header headers = none) :
    f.run headers = (.error (.unauthorizedChallenge f.scheme f.realm), false) ∧
    Auth.renderRejection (.unauthorizedChallenge f.scheme f.realm) =
      some ⟨401, [(("WWW-Authenticate"),
        f.scheme ++ (" realm=\"") ++ f.realm ++ ("\""))], ("")⟩ ∧
    ∀ g : Unit → Except Auth.Rejection ρ,
      (Auth.AuthFilter.mk f.authorizer f.scheme f.realm g).run headers = f.run headers := by
  refine ⟨?_, rfl, ?_⟩
  · simp [Auth.AuthFilter.run, h]
  · intro g
    simp [Auth.AuthFilter.run, h]

/-- Witness for C1 at a request with no Authorization header. -/
theorem missing_credential_challenge_witness :
    (Auth.AuthFilter.mk ⟨("Basic"), ("test"), fun _ => Except.ok ()⟩ ("Basic") ("test")
        (fun _ => Except.ok (0 : Nat))).run [] =
      (.error (.unauthorizedChallenge ("Basic") ("test")), false) :=
  (missing_credential_challenge
    (Auth.AuthFilter.mk ⟨("Basic"), ("test"), fun _ => Except.ok ()⟩ ("Basic") ("test")
      (fun _ => Except.ok (0 : Nat))) [] rfl).1

/-- C2: when a credential is extracted and the authorizer denies it, the
middleware produces the Forbidden rejection, rendered as 403; the inner filter
is not invoked (the recorded invocation flag is false and the outcome is
independent of the inner filter). -/
theorem denied_credential_forbidden {ρ : Type} (f : Auth.AuthFilter ρ)
    (headers : HeaderMap) (h : Auth.AuthHeader) (r : Auth.Rejection)
    (hx : f.authorizer.extract_header headers = some h)
    (hd : f.authorizer.handle_request h = .error r) :
    f.run headers = (.error .forbidden, false) ∧
    Auth.renderRejection .forbidden = some ⟨403, [], ("")⟩ ∧
    ∀ g : Unit → Except Auth.Rejection ρ,
      (Auth.AuthFilter.mk f.authorizer f.scheme f.realm g).run headers = f.run headers := by
  refine ⟨?_, rfl, ?_⟩
  · simp [Auth.AuthFilter.run, hx, hd]
  · intro g
    simp [Auth.AuthFilter.run, hx, hd]

/-- Witness for C2 at a well-formed Basic credential that the authorizer
denies with a specific rejection. -/
theorem denied_credential_forbidden_witness :
    (Auth.AuthFilter.mk ⟨("Basic"), ("test"), fun _ => Except.error (Auth.Rejection.other 7)⟩
        ("Basic") ("test") (fun _ => Except.ok (0 : Nat))).run
      [(("authorization"), ("Basic YWxpY2U6c2VjcmV0"))] = (.error .forbidden, false) :=
  (denied_credential_forbidden
    (Auth.AuthFilter.mk ⟨("Basic"), ("test"), fun _ => Except.error (Auth.Rejection.other 7)⟩
      ("Basic") ("test") (fun _ => Except.ok (0 : Nat)))
    [(("authorization"), ("Basic YWxpY2U6c2VjcmV0"))]
    (.basic ⟨("alice"), ("secret")⟩) (Auth.Rejection.other 7) (by decide) rfl).1

/-- C3: when a credential is extracted and the authorizer accepts it, the
middleware result is the inner extraction wrapped with the authorization
context, and rendering the wrapper delegates to the inner reply unchanged. -/
theorem accepted_pass_through {ρ R : Type} (f : Auth.AuthFilter ρ)
    (headers : HeaderMap) (h : Auth.AuthHeader) (x : ρ) (intoResponse : ρ → R)
    (hx : f.authorizer.extract_header headers = some h)
    (ha : f.authorizer.handle_request h = .ok ())
    (hi : f.inner () = .ok x) :
    f.run headers = (.ok ⟨(f.authorizer, h), x⟩, true) ∧
    Auth.Wrapped.into_response intoResponse ⟨(f.authorizer, h), x⟩ = intoResponse x := by
  refine ⟨?_, rfl⟩
  simp [Auth.AuthFilter.run, hx, ha, hi]

/-- Witness for C3 at the accepted Basic credential of the spec scenario. -/
theorem accepted_pass_through_witness :
    (Auth.AuthFilter.mk ⟨("Basic"), ("test"), fun _ => Except.ok ()⟩ ("Basic") ("test")
        (fun _ => Except.ok (42 : Nat))).run
      [(("authorization"), ("Basic YWxpY2U6c2VjcmV0"))] =
      (.ok ⟨(⟨("Basic"), ("test"), fun _ => Except.ok ()⟩,
        .basic ⟨("alice"), ("secret")⟩), 42⟩, true) :=
  (accepted_pass_through
    (Auth.AuthFilter.mk ⟨("Basic"), ("test"), fun _ => Except.ok ()⟩ ("Basic") ("test")
      (fun _ => Except.ok (42 : Nat)))
    [(("authorization"), ("Basic YWxpY2U6c2VjcmV0"))]
    (.basic ⟨("alice"), ("secret")⟩) 42 (fun n => n) (by decide) rfl rfl).1

/-- C4 as stated is false on the code: with scheme Basic configured, a request
carrying a Bearer Authorization header is not treated as absent or malformed;
the Bearer credential is extracted, the authorizer receives it, and with an
accepting authorizer the request passes through (inner invoked) instead of
being rejected with the 401 challenge. -/
theorem bearer_with_basic_scheme_cex :
    (Auth.Authorizer.mk ("Basic") ("test") (fun _ => Except.ok ())).extract_header
        [(("authorization"), ("Bearer abc"))] = some (.bearer ⟨("abc")⟩) ∧
    ((Auth.AuthFilter.mk ⟨("Basic"), ("test"), fun _ => Except.ok ()⟩ ("Basic") ("test")
        (fun _ => Except.ok (0 : Nat))).run [(("authorization"), ("Bearer abc"))]).2 = true ∧
    ((Auth.AuthFilter.mk ⟨("Basic"), ("test"), fun _ => Except.ok ()⟩ ("Basic") ("test")
        (fun _ => Except.ok (0 : Nat))).run [(("authorization"), ("Bearer abc"))]).1 ≠
      .error (.unauthorizedChallenge ("Basic") ("test")) := by
  refine ⟨by decide, rfl, ?_⟩
  have hrun : ((Auth.AuthFilter.mk ⟨("Basic"), ("test"), fun _ => Except.ok ()⟩
      ("Basic") ("test") (fun _ => Except.ok (0 : Nat))).run
        [(("authorization"), ("Bearer abc"))]).1 =
      Except.ok ⟨(⟨("Basic"), ("test"), fun _ => Except.ok ()⟩, .bearer ⟨("abc")⟩), (0 : Nat)⟩ :=
    rfl
  rw [hrun]
  exact fun hcontra => Except.noConfusion hcontra

/-- C4 amended: extraction ignores the configured scheme, so under a
middleware configured with scheme Basic a well-formed Bearer header is
extracted as a Bearer credential and passed to the authorizer; the outcome is
the authorizer verdict on it (Forbidden on deny, pass-through on accept), not
the 401 challenge. -/
theorem bearer_with_basic_scheme {ρ : Type} (realm value : String)
    (t : Auth.Bearer) (headers : HeaderMap)
    (az : Auth.AuthHeader → Except Auth.Rejection Unit)
    (inner : Unit → Except Auth.Rejection ρ)
    (hget : getHeader headers ("authorization") = some value)
    (hb : Auth.decodeBasicAuth value = none)
    (ht : Auth.decodeBearerAuth value = some t) :
    (Auth.Authorizer.mk ("Basic") realm az).extract_header headers
      = some (.bearer t) ∧
    (∀ r, az (.bearer t) = .error r →
      (Auth.AuthFilter.mk ⟨("Basic"), realm, az⟩ ("Basic") realm inner).run headers
        = (.error .forbidden, false)) ∧
    (∀ x, az (.bearer t) = .ok () → inner () = .ok x →
      (Auth.AuthFilter.mk ⟨("Basic"), realm, az⟩ ("Basic") realm inner).run headers
        = (.ok ⟨(⟨("Basic"), realm, az⟩, .bearer t), x⟩, true)) := by
  have hx : (Auth.Authorizer.mk ("Basic") realm az).extract_header headers
      = some (.bearer t) := by
    simp [Auth.Authorizer.extract_header, Auth.typedTryGetBasic, Auth.typedTryGetBearer,
      hget, hb, ht]
  refine ⟨hx, ?_, ?_⟩
  · intro r hr
    simp [Auth.AuthFilter.run, Auth.Authorizer.handle_request, hx, hr]
  · intro x hok hi
    simp [Auth.AuthFilter.run, Auth.Authorizer.handle_request, hx, hok, hi]

/-- Witness for the amended C4: a denying authorizer turns the Bearer header
under a Basic-configured middleware into Forbidden, not into the challenge. -/
theorem bearer_with_basic_scheme_witness :
    (Auth.AuthFilter.mk ⟨("Basic"), ("test"), fun _ => Except.error (Auth.Rejection.other 5)⟩
        ("Basic") ("test") (fun _ => Except.ok (0 : Nat))).run
      [(("authorization"), ("Bearer abc"))] = (.error .forbidden, false) :=
  ((bearer_with_basic_scheme ("test") ("Bearer abc") ⟨("abc")⟩
      [(("authorization"), ("Bearer abc"))]
      (fun _ => Except.error (Auth.Rejection.other 5))
      (fun _ => Except.ok (0 : Nat))
      (by decide) (by decide) (by decide)).2.1) (Auth.Rejection.other 5) rfl

/-- C5: the extractor returns none when the Authorization header is absent,
attempts the Basic decode first, attempts the Bearer decode only when Basic
fails, and returns none when both fail: Authorizer::extract_header coincides
with the extraction function written from the words of the spec, so at most
one credential, chosen in the fixed Basic-before-Bearer order, is extracted. -/
theorem extract_follows_spec_order (a : Auth.Authorizer) (headers : HeaderMap) :
    a.extract_header headers = Auth.extractSpec headers := by
  unfold Auth.Authorizer.extract_header Auth.extractSpec Auth.typedTryGetBasic
    Auth.typedTryGetBearer
  cases hget : getHeader headers ("authorization") with
  | none => rfl
  | some v =>
    cases hb : Auth.decodeBasicAuth v with
    | some b => simp [hb]
    | none =>
      cases ht : Auth.decodeBearerAuth v with
      | some t => simp [hb, ht]
      | none => simp [hb, ht]

/-- C6: for a header value of the Basic form (parse succeeds with a payload),
the basic decoder base64-decodes the payload and splits the bytes at the first
colon, user before, password after, both sides decoded with lossy UTF-8;
malformed base64 or a payload without a colon gives none rather than an
error. -/
theorem basic_decode_behavior (value payload : String)
    (h : Authorization.parse ("Basic") value = some payload) :
    (base64Decode payload = none → Authorization.basic value = none) ∧
    ∀ d, base64Decode payload = some d →
      ((58 : Nat) ∉ d → Authorization.basic value = none) ∧
      ∀ u p, d = u ++ 58 :: p → (58 : Nat) ∉ u →
        Authorization.basic value = some ⟨fromUtf8Lossy u, fromUtf8Lossy p⟩ := by
  constructor
  · intro hb
    simp [Authorization.basic, h, hb]
  · intro d hd
    constructor
    · intro hno
      simp [Authorization.basic, h, hd, splitn2Colon_no_colon d hno]
    · intro u p hdu hu
      subst hdu
      simp [Authorization.basic, h, hd, splitn2Colon_before_colon u p hu]

/-- Witness for C6 at the base64 encoding of the colon-separated pair from the
spec scenario. -/
theorem basic_decode_behavior_witness :
    Authorization.basic ("Basic YWxpY2U6c2VjcmV0") = some ⟨("alice"), ("secret")⟩ := by
  have h := ((basic_decode_behavior ("Basic YWxpY2U6c2VjcmV0") ("YWxpY2U6c2VjcmV0")
      (by decide)).2
    [97, 108, 105, 99, 101, 58, 115, 101, 99, 114, 101, 116] (by decide)).2
    [97, 108, 105, 99, 101] [115, 101, 99, 114, 101, 116] (by decide) (by decide)
  exact h.trans (by decide)

/-- C7 as stated is false on the code: for the header value below, whose
remainder after the scheme name is two words, the decoder returns only the
second whitespace-separated word, not the verbatim remainder. -/
theorem bearer_token_not_remainder_cex :
    Authorization.bearer ("Bearer a b") = some ⟨("a")⟩ ∧
    Authorization.bearer ("Bearer a b") ≠ some ⟨("a b")⟩ :=
  ⟨by decide, by decide⟩

/-- C7 amended: the Bearer decoder returns the second whitespace-separated
word of the header value (the first word after the scheme name) as the token,
discarding any later whitespace-separated content and performing no validation
of the token characters; none when no second word exists. -/
theorem bearer_second_word (value first : String) (rest : List String)
    (hv : headerValueToStr value = some value)
    (hw : splitWhitespace value = first :: rest) :
    Authorization.bearer value =
      if first = ("Bearer") then rest.head?.map (fun t => ⟨t⟩) else none := by
  cases rest with
  | nil =>
    by_cases heq : first = ("Bearer") <;>
      simp [Authorization.bearer, Authorization.parse, hv, hw, heq]
  | cons t more =>
    by_cases heq : first = ("Bearer") <;>
      simp [Authorization.bearer, Authorization.parse, hv, hw, heq]

/-- Witness for the amended C7 at a one-word Bearer token. -/
theorem bearer_second_word_witness :
    Authorization.bearer ("Bearer tok123") = some ⟨("tok123")⟩ := by
  have h := bearer_second_word ("Bearer tok123") ("Bearer") [("tok123")]
    (by decide) (by decide)
  exact h.trans (by decide)

/-- C8: once authorization has succeeded, an error produced by the inner
filter propagates through the middleware unmodified: the final result carries
exactly the error value of the inner filter. -/
theorem downstream_error_propagates {ρ : Type} (f : Auth.AuthFilter ρ)
    (headers : HeaderMap) (h : Auth.AuthHeader) (e : Auth.Rejection)
    (hx : f.authorizer.extract_header headers = some h)
    (ha : f.authorizer.handle_request h = .ok ())
    (hi : f.inner () = .error e) :
    f.run headers = (.error e, true) := by
  simp [Auth.AuthFilter.run, hx, ha, hi]

/-- Witness for C8 at an inner filter failing with a specific rejection. -/
theorem downstream_error_propagates_witness :
    (Auth.AuthFilter.mk ⟨("Basic"), ("test"), fun _ => Except.ok ()⟩ ("Basic") ("test")
        (fun _ => Except.error (Auth.Rejection.other 9) : Unit → Except Auth.Rejection Nat)).run
      [(("authorization"), ("Basic YWxpY2U6c2VjcmV0"))] =
      (.error (.other 9), true) :=
  downstream_error_propagates
    (Auth.AuthFilter.mk ⟨("Basic"), ("test"), fun _ => Except.ok ()⟩ ("Basic") ("test")
      (fun _ => Except.error (Auth.Rejection.other 9) : Unit → Except Auth.Rejection Nat))
    [(("authorization"), ("Basic YWxpY2U6c2VjcmV0"))]
    (.basic ⟨("alice"), ("secret")⟩) (Auth.Rejection.other 9) (by decide) rfl rfl

/-- C9: the specific rejection the authorizer denies with is discarded: two
authorizers denying the same credential with different rejections produce
identical middleware outcomes, always the generic Forbidden rejection. -/
theorem authorizer_rejection_discarded {ρ : Type} (scheme realm : String)
    (headers : HeaderMap) (h : Auth.AuthHeader) (r₁ r₂ : Auth.Rejection)
    (az₁ az₂ : Auth.AuthHeader → Except Auth.Rejection Unit)
    (inner : Unit → Except Auth.Rejection ρ)
    (hx : (Auth.Authorizer.mk scheme realm az₁).extract_header headers = some h)
    (h₁ : az₁ h = .error r₁) (h₂ : az₂ h = .error r₂) :
    (Auth.AuthFilter.mk ⟨scheme, realm, az₁⟩ scheme realm inner).run headers
      = (.error .forbidden, false) ∧
    (Auth.AuthFilter.mk ⟨scheme, realm, az₂⟩ scheme realm inner).run headers
      = (Auth.AuthFilter.mk ⟨scheme, realm, az₁⟩ scheme realm inner).run headers := by
  have hx₂ : (Auth.Authorizer.mk scheme realm az₂).extract_header headers = some h := hx
  constructor
  · simp [Auth.AuthFilter.run, Auth.Authorizer.handle_request, hx, h₁]
  · simp [Auth.AuthFilter.run, Auth.Authorizer.handle_request, hx, hx₂, h₁, h₂]

/-- Witness for C9 at two authorizers denying with distinct rejections. -/
theorem authorizer_rejection_discarded_witness :
    (Auth.AuthFilter.mk ⟨("Basic"), ("test"), fun _ => Except.error (Auth.Rejection.other 1)⟩
        ("Basic") ("test") (fun _ => Except.ok (0 : Nat))).run
      [(("authorization"), ("Basic YWxpY2U6c2VjcmV0"))] = (.error .forbidden, false) :=
  (authorizer_rejection_discarded ("Basic") ("test")
    [(("authorization"), ("Basic YWxpY2U6c2VjcmV0"))]
    (.basic ⟨("alice"), ("secret")⟩) (Auth.Rejection.other 1) (Auth.Rejection.other 2)
    (fun _ => Except.error (Auth.Rejection.other 1))
    (fun _ => Except.error (Auth.Rejection.other 2))
    (fun _ => Except.ok (0 : Nat))
    (by decide) rfl rfl).1

/-- C10: scheme matching in the extraction filters of
src/filters/authorization.rs is case-sensitive exact string equality on the
first whitespace-separated word of the header value: a first word different
from the scheme (for example differing only in case) makes parse return none,
and an equal first word makes parse return the following word. -/
theorem parse_first_word_case_sensitive (scheme value first : String)
    (rest : List String)
    (hv : headerValueToStr value = some value)
    (hw : splitWhitespace value = first :: rest) :
    (first ≠ scheme → Authorization.parse scheme value = none) ∧
    (first = scheme → Authorization.parse scheme value = rest.head?) := by
  constructor
  · intro hne
    simp [Authorization.parse, hv, hw, hne]
  · intro heq
    simp [Authorization.parse, hv, hw, heq]

/-- Witness for C10 at a lower-case scheme word, which is rejected. -/
theorem parse_first_word_case_sensitive_witness :
    Authorization.parse ("Basic") ("basic dXNlcjpwYXNz") = none :=
  (parse_first_word_case_sensitive ("Basic") ("basic dXNlcjpwYXNz") ("basic")
    [("dXNlcjpwYXNz")] (by decide) (by decide)).1 (by decide)

end Warp
